import Mathlib

/-!
Verification of the two-pass assembler core (sagiia/Assembler-in-C).

The definitions below are a shallow embedding of the C sources:
`text_tool.c`, `first_pass.c`, `second_pass.c`, `label_list.c`,
`macro_list.c` and `pre_assembly.c`.  Machine integers are modelled as
`Nat`/`Int` with explicit truncation where the C code truncates
(bit-fields, unsigned casts); C strings are modelled as `List Char`
where the end of the list plays the role of the NUL terminator;
linked lists become `List`s; in-place mutation becomes explicit state
passing.
-/

namespace Assembler

/-- Source `FIRST_CELL_IN_MEMORY` from `setting.h`. -/
def FIRST_CELL_IN_MEMORY : Nat := 100

/-- Source `MAX_NAME_LABEL_LENGTH` from `setting.h`. -/
def MAX_NAME_LABEL_LENGTH : Nat := 32

/-- Source `BASE_POW` from `setting.h`. -/
def BASE_POW : Nat := 2

/-- The `error_code` enumeration from `error_tool.h`. -/
inductive error_code where
  | NO_ERROR
  | LABEL_ALREADY_EXISTS
  | MACRO_ALREADY_EXISTS
  | COMMA_REQUIRED_BETWEEN_VALUES
  | DATA_NEED_NUM_VALUE
  | CANT_DEFINE_LABEL_BEFORE_ENTRY
  | CANT_DEFINE_LABEL_BEFORE_EXTERN
  | STRING_STRUCTURE_NOT_VALID
  | STRING_MUST_END_IN_QUOTES
  | STRING_DIRECTIVE_ACCEPTS_ONE_PARAMETER
  | TOO_MUCH_WORDS_FOR_INSTRUCTION
  | CANT_FIND_LABEL_TO_ENTRY
  | INVALID_LABEL_NAME
  | INSTRUCTION_NAME_NOT_EXIST
  | INSTRUCTION_SHOULD_RECEIVE_TWO_OPERANDS
  | COMMA_REQUIRED_BETWEEN_OPERANDS
  | INSTRUCTION_SHOULD_RECEIVE_ONE_OPERAND
  | INSTRUCTION_SHOULD_NOT_RECEIVE_OPERANDS
  | INVALID_ADDRESS_METHOD_FOR_INSTRUCTION
  | MUST_PROVIDE_LABELS_TO_EXTERN
  | MUST_PROVIDE_LABELS_TO_ENTRY
  | MUST_PROVIDE_VALUES_TO_DATA
  | INVALID_COMMA_POSITION
  | LABEL_NOT_FOUND
  | NESTED_MACRO_DEFINITION
  | MACRO_NAME_IS_INSTRUCTION_OR_DIRECTIVE
  deriving DecidableEq, Repr

/-- The `instruction_type` enumeration from `text_tool.h` (opcode numbers
are the positions in the list, `NOT_INSTRUCTION` = 16). -/
inductive instruction_type where
  | MOV | CMP | ADD | SUB | NOT | CLR | LEA | INC
  | DEC | JMP | BNE | RED | PRN | JSR | RTS | STOP
  | NOT_INSTRUCTION
  deriving DecidableEq, Repr

/-- The numeric value the C enum constant of `instruction_type` carries
(its position in the declaration list). -/
def instruction_type.val : instruction_type → Nat
  | .MOV => 0 | .CMP => 1 | .ADD => 2 | .SUB => 3
  | .NOT => 4 | .CLR => 5 | .LEA => 6 | .INC => 7
  | .DEC => 8 | .JMP => 9 | .BNE => 10 | .RED => 11
  | .PRN => 12 | .JSR => 13 | .RTS => 14 | .STOP => 15
  | .NOT_INSTRUCTION => 16

/-- The `addressing_method` enumeration from `text_tool.h`:
`NOT_EXIST = 0`, `IMMEDIATE = 1`, `DIRECT = 3`, `REGISTER = 5`. -/
inductive addressing_method where
  | NOT_EXIST | IMMEDIATE | DIRECT | REGISTER
  deriving DecidableEq, Repr

/-- The numeric value the C enum constant of `addressing_method` carries. -/
def addressing_method.val : addressing_method → Nat
  | .NOT_EXIST => 0
  | .IMMEDIATE => 1
  | .DIRECT => 3
  | .REGISTER => 5

/-- The `encoding_type` enumeration from `text_tool.h`:
`ABSOLUTE = 0`, `EXTERNAL = 1`, `RELOCATABLE = 2`. -/
inductive encoding_type where
  | ABSOLUTE | EXTERNAL | RELOCATABLE
  deriving DecidableEq, Repr

/-- The numeric value the C enum constant of `encoding_type` carries. -/
def encoding_type.val : encoding_type → Nat
  | .ABSOLUTE => 0
  | .EXTERNAL => 1
  | .RELOCATABLE => 2

/-- The first word of an instruction laid down by
`add_first_word_of_instruction_to_array` (`first_pass.c`).  The C code
fills a bit-field struct
`{encoding_type:2; destination_address:3; opcode:4; source_address:3}`
(fields allocated from bit 0 upward) and copies it into
`instruction_array[IC]`; each field stores its value truncated to the
field width.  Only the 12 named bits are modelled (the words of this
machine are 12 bits wide and only bits 0-11 are ever serialised). -/
def add_first_word_of_instruction_to_array
    (type : instruction_type) (source destination : addressing_method) : Nat :=
  (encoding_type.val .ABSOLUTE % 2 ^ 2)
    + (destination.val % 2 ^ 3) * 2 ^ 2
    + (type.val % 2 ^ 4) * 2 ^ 5
    + (source.val % 2 ^ 3) * 2 ^ 9

/-- Source `pow_math` from `text_tool.c`: binary exponentiation of
`BASE_POW = 2`; the C loop `while (exp) {...}` expressed recursively
(the negative-exponent branch cannot arise for `Nat` input). -/
def pow_math_loop (base result exp : Nat) : Nat :=
  if exp = 0 then result
  else pow_math_loop (base * base) (if exp % 2 = 1 then result * base else result) (exp / 2)
termination_by exp
decreasing_by exact Nat.div_lt_self (Nat.pos_of_ne_zero (by assumption)) (by omega)

/-- Source `pow_math(exp)` = `BASE_POW ^ exp` computed by the loop of `text_tool.c`. -/
def pow_math (exp : Nat) : Nat := pow_math_loop BASE_POW 1 exp

/-- Source `get_specific_bits` from `text_tool.c`: mask the bits
`start..fin` (inclusive) of `word` and shift them down to bit 0. -/
def get_specific_bits (word : Nat) (start fin : Nat) : Nat :=
  ((word &&& ((pow_math (fin - start + 1) - 1) <<< start)) >>> start)

/-- The `base64_table` lookup array of `convert_binary_to_64base`
(`text_tool.c`). -/
def base64_table : List Char :=
  ['A', 'B', 'C', 'D', 'E', 'F', 'G', 'H',
   'I', 'J', 'K', 'L', 'M', 'N', 'O', 'P',
   'Q', 'R', 'S', 'T', 'U', 'V', 'W', 'X',
   'Y', 'Z', 'a', 'b', 'c', 'd', 'e', 'f',
   'g', 'h', 'i', 'j', 'k', 'l', 'm', 'n',
   'o', 'p', 'q', 'r', 's', 't', 'u', 'v',
   'w', 'x', 'y', 'z', '0', '1', '2', '3',
   '4', '5', '6', '7', '8', '9', '+', '/']

/-- Source `convert_binary_to_64base` from `text_tool.c`: the returned buffer
holds `base64_table[bits 6-11]`, `base64_table[bits 0-5]` and a
newline (the NUL terminator of the C buffer is the end of the list). -/
def convert_binary_to_64base (word : Nat) : List Char :=
  [base64_table.getD (get_specific_bits word 6 11) 'A',
   base64_table.getD (get_specific_bits word 0 5) 'A',
   '\n']

/-- The `type_of_label` enumeration from `label_list.h`. -/
inductive type_of_label where
  | DATA | CODE | EXTERN | ENTRY
  deriving DecidableEq, Repr

/-- One node of the label linked list (`label_list.h`): name, address
and kind.  Addresses are C `int`s, modelled as `Int`. -/
structure item_label where
  name_label : String
  address_label : Int
  type : type_of_label
  deriving DecidableEq, Repr

/-- Source `add_to_list_label` from `label_list.c`.  The C function walks the
list up to the first node whose name matches (or the last node),
returns `LABEL_ALREADY_EXISTS` leaving the list untouched when a match
is found, and otherwise appends the freshly created node at the end,
returning `NO_ERROR`.  The returned pair is (error code, new list). -/
def add_to_list_label (head : List item_label) (name : String) (address : Int)
    (type : type_of_label) : error_code × List item_label :=
  match head with
  | [] => (.NO_ERROR, [⟨name, address, type⟩])
  | node :: rest =>
    if node.name_label = name then
      (.LABEL_ALREADY_EXISTS, node :: rest)
    else
      match rest with
      | [] => (.NO_ERROR, [node, ⟨name, address, type⟩])
      | _ :: _ =>
        let result := add_to_list_label rest name address type
        (result.1, node :: result.2)

/-- Source `update_address_of_data` from `label_list.c`: walk the list and add
`ic` to the address of every node whose type is `DATA`. -/
def update_address_of_data (head_label : List item_label) (ic : Int) : List item_label :=
  match head_label with
  | [] => []
  | node :: rest =>
    (if node.type = .DATA then
      { node with address_label := node.address_label + ic }
     else node) :: update_address_of_data rest ic

/-- Source `search_in_list_label` from `label_list.c`: first node with the
given name, if any. -/
def search_in_list_label (head_label : List item_label) (name_label : String) :
    Option item_label :=
  match head_label with
  | [] => none
  | node :: rest =>
    if node.name_label = name_label then some node
    else search_in_list_label rest name_label

/-- Source `get_entry_list` from `label_list.c`: one `<name>\t<address>\n`
line per node of kind `ENTRY`, in list order. -/
def get_entry_list (head_label : List item_label) : String :=
  match head_label with
  | [] => ""
  | node :: rest =>
    (if node.type = .ENTRY then
      node.name_label ++ "\t" ++ toString node.address_label ++ "\n"
     else "") ++ get_entry_list rest

/-- Source `convert_binary_to_64base` output as a `String` line, as written by
`fputs` in `create_object_file` (`second_pass.c`). -/
def word_line (word : Nat) : String :=
  String.mk (convert_binary_to_64base word)

/-- The lines of the object file produced by `create_object_file`
(`second_pass.c`): the header `"<IC - FIRST_CELL_IN_MEMORY>\t<DC>\n"`,
then `instruction_array[i]` for `i = FIRST_CELL_IN_MEMORY .. IC-1`,
then `data_array[i]` for `i = 0 .. DC-1`, each base-64 encoded.
The two word arrays are modelled as functions from cell index to the
stored (unsigned) value. -/
def create_object_file (instruction_array data_array : Nat → Nat) (ic dc : Nat) :
    List String :=
  (toString (ic - FIRST_CELL_IN_MEMORY) ++ "\t" ++ toString dc ++ "\n")
    :: ((List.range (ic - FIRST_CELL_IN_MEMORY)).map
          (fun i => word_line (instruction_array (FIRST_CELL_IN_MEMORY + i)))
        ++ (List.range dc).map (fun i => word_line (data_array i)))

/-- The kind of output artefact, named after the extension constants
used by `create_all_files` (`second_pass.c`). -/
inductive file_kind where
  | ENT | EXT | OB
  deriving DecidableEq, Repr

/-- Source `create_all_files` from `second_pass.c` (reached only when
`error_flag` is false): writes the entry file iff `entry_flag` is set,
the extern file iff `extern_flag` is set, and always the object file.
Each written artefact is returned as (kind, full text). -/
def create_all_files (entry_flag extern_flag : Bool)
    (head_label_list : List item_label) (extern_list : String)
    (instruction_array data_array : Nat → Nat) (ic dc : Nat) :
    List (file_kind × String) :=
  (if entry_flag then [(file_kind.ENT, get_entry_list head_label_list)] else [])
    ++ (if extern_flag then [(file_kind.EXT, extern_list)] else [])
    ++ [(file_kind.OB, String.join (create_object_file instruction_array data_array ic dc))]

/-! Section: character classification and token scanning (`text_tool.c`)

C strings are modelled as `List Char`: the end of the list is the NUL
terminator, and a scanning position inside a line is modelled by the
remaining suffix of the line (the C functions only ever move forward). -/

/-- C `isalpha` in the "C" locale. -/
def isalpha (c : Char) : Bool := ('A' ≤ c && c ≤ 'Z') || ('a' ≤ c && c ≤ 'z')

/-- C `isdigit`. -/
def isdigit (c : Char) : Bool := '0' ≤ c && c ≤ '9'

/-- The scan loop of `is_number` (`text_tool.c`), after the optional
sign: runs until NUL or newline, failing on any non-digit. -/
def is_number_loop : List Char → Bool
  | [] => true
  | c :: rest =>
    if c = '\n' then true
    else if isdigit c then is_number_loop rest
    else false

/-- Source `is_number` from `text_tool.c`: skip one leading `+` or `-`, then
require every remaining character (up to NUL or newline) to be a digit.
The empty string and a bare sign are accepted. -/
def is_number (text : List Char) : Bool :=
  is_number_loop
    (match text with
     | c :: rest => if c = '+' || c = '-' then rest else c :: rest
     | [] => [])

/-- Source `is_register` from `text_tool.c`: the eight names `@r0`..`@r7`. -/
def is_register (text : List Char) : Bool :=
  text = "@r1".toList || text = "@r2".toList ||
  text = "@r3".toList || text = "@r4".toList ||
  text = "@r5".toList || text = "@r6".toList ||
  text = "@r7".toList || text = "@r0".toList

/-- Source `is_name_a_reserved_word` from `text_tool.c`.  The comparison
chain covers the four directives, the registers *except `@r1`* (the
source omits it), and the sixteen opcode mnemonics; the macro keywords
`mcro`/`endmcro` are not in the list. -/
def is_name_a_reserved_word (name : List Char) : Bool :=
  if name = ".data".toList then true
  else if name = ".string".toList then true
  else if name = ".entry".toList then true
  else if name = ".extern".toList then true
  else if name = "@r0".toList then true
  else if name = "@r2".toList then true
  else if name = "@r3".toList then true
  else if name = "@r4".toList then true
  else if name = "@r5".toList then true
  else if name = "@r6".toList then true
  else if name = "@r7".toList then true
  else if name = "mov".toList then true
  else if name = "cmp".toList then true
  else if name = "add".toList then true
  else if name = "sub".toList then true
  else if name = "not".toList then true
  else if name = "clr".toList then true
  else if name = "lea".toList then true
  else if name = "inc".toList then true
  else if name = "dec".toList then true
  else if name = "jmp".toList then true
  else if name = "bne".toList then true
  else if name = "red".toList then true
  else if name = "prn".toList then true
  else if name = "jsr".toList then true
  else if name = "rts".toList then true
  else if name = "stop".toList then true
  else false

/-- The character/length scan loop of `is_label_name_valid`
(`text_tool.c`).  The C loop condition is
`name[i] != '\n' && name[i] != '\0' && count_chars <= 32`; on exit it
returns FALSE exactly when `count_chars == 32`; inside the loop a
non-alphanumeric character returns FALSE; `i` and `count_chars` are
incremented together (here `count` is the single shared counter). -/
def is_label_name_valid_loop (name : List Char) (count : Nat) : Bool :=
  match name with
  | [] => count ≠ MAX_NAME_LABEL_LENGTH
  | c :: rest =>
    if c = '\n' ∨ count > MAX_NAME_LABEL_LENGTH then count ≠ MAX_NAME_LABEL_LENGTH
    else if isalpha c = false ∧ isdigit c = false then false
    else is_label_name_valid_loop rest (count + 1)

/-- Source `is_label_name_valid` from `text_tool.c`: reject reserved words,
require a leading alphabetic character, then run the scan loop from
count 0.  (An empty name fails the leading-letter test, since the C
code reads the NUL terminator there.) -/
def is_label_name_valid (name_label : List Char) : Bool :=
  if is_name_a_reserved_word name_label then false
  else
    match name_label with
    | [] => false
    | c :: _ =>
      if isalpha c = false then false
      else is_label_name_valid_loop name_label 0

/-- Source `get_addressing_method_type` from `text_tool.c`: empty word ↦
`NOT_EXIST`; numeric literal ↦ `IMMEDIATE`; register name ↦
`REGISTER`; anything else ↦ `DIRECT`. -/
def get_addressing_method_type (word : List Char) : addressing_method :=
  match word with
  | [] => .NOT_EXIST
  | _ :: _ =>
    if is_number word then .IMMEDIATE
    else if is_register word then .REGISTER
    else .DIRECT

/-- Source `skip_white_character` from `text_tool.c`, cursor version: drop
leading spaces and tabs. -/
def skip_white_character : List Char → List Char
  | c :: rest => if c = ' ' || c = '\t' then skip_white_character rest else c :: rest
  | [] => []

/-- The word-skipping loop of `skip_one_word_in_line` (`text_tool.c`):
advance while the character is not a space, a tab or NUL (a newline
does *not* stop this loop, faithfully to the source). -/
def skip_word_loop : List Char → List Char
  | c :: rest => if c = ' ' || c = '\t' then c :: rest else skip_word_loop rest
  | [] => []

/-- Source `skip_one_word_in_line` from `text_tool.c`: skip leading
whitespace, then skip the current word. -/
def skip_one_word_in_line (line_text : List Char) : List Char :=
  skip_word_loop (skip_white_character line_text)

/-- Source `is_end_line` from `text_tool.c`: only whitespace remains before
the newline or the NUL terminator. -/
def is_end_line : List Char → Bool
  | [] => true
  | c :: rest =>
    if c = '\n' then true
    else if c = '\t' || c = ' ' then is_end_line rest
    else false

/-- The scan loop of `get_next_word_without_comma` (`first_pass.c` /
`second_pass.c`): collect characters until a space, tab, newline,
comma or NUL; returns (word, rest). -/
def word_scan : List Char → List Char × List Char
  | [] => ([], [])
  | c :: rest =>
    if c = ' ' || c = '\t' || c = '\n' || c = ',' then ([], c :: rest)
    else
      let p := word_scan rest
      (c :: p.1, p.2)

/-- Source `get_next_word_without_comma` from `first_pass.c`: extract the next
word, then skip trailing whitespace. -/
def get_next_word_without_comma (text : List Char) : List Char × List Char :=
  let p := word_scan text
  (p.1, skip_white_character p.2)

/-- Source `check_for_comma` from `first_pass.c`: if the current character is
a comma, consume it and answer `true`; otherwise answer `false`, adding
`COMMA_REQUIRED_BETWEEN_VALUES` unless the line has ended (newline or
NUL).  Result: (comma found, rest, diagnostics raised). -/
def check_for_comma (text : List Char) : Bool × List Char × List error_code :=
  match text with
  | [] => (false, [], [])
  | c :: rest =>
    if c = ',' then (true, rest, [])
    else (false, c :: rest, if c = '\n' then [] else [.COMMA_REQUIRED_BETWEEN_VALUES])

/-- C standard library `atoi`, digit-accumulation loop. -/
def atoi_digits : List Char → Nat → Nat
  | c :: rest, acc =>
    if isdigit c then atoi_digits rest (acc * 10 + (c.toNat - 48)) else acc
  | [], acc => acc

/-- C standard library `atoi` (the assembler calls it on whole
whitespace-free tokens): optional sign followed by leading digits;
parsing stops at the first non-digit, and no digits yield 0. -/
def atoi (text : List Char) : Int :=
  match text with
  | '-' :: rest => -(atoi_digits rest 0 : Int)
  | '+' :: rest => (atoi_digits rest 0 : Int)
  | t => (atoi_digits t 0 : Int)

/-- Conversion of a C `int` to `unsigned int` (reduction modulo 2^32),
as in `sfile->data_array[sfile->DC] = (unsigned int) temp_number`. -/
def to_unsigned (n : Int) : Nat := (n.emod (2 ^ 32)).toNat

/-- Skipping whitespace never lengthens the remaining text. -/
theorem skip_white_character_length_le (t : List Char) :
    (skip_white_character t).length ≤ t.length := by
  induction t with
  | nil => simp [skip_white_character]
  | cons c rest ih =>
    rw [skip_white_character]
    split
    · exact Nat.le_trans ih (Nat.le_succ _)
    · exact Nat.le_refl _

/-- The rest after scanning a word is a suffix of the input. -/
theorem word_scan_length_le (t : List Char) :
    (word_scan t).2.length ≤ t.length := by
  induction t with
  | nil => simp [word_scan]
  | cons c rest ih =>
    rw [word_scan]
    split
    · exact Nat.le_refl _
    · exact Nat.le_trans ih (Nat.le_succ _)

/-- Extracting a word never lengthens the remaining text. -/
theorem get_next_word_without_comma_length_le (t : List Char) :
    (get_next_word_without_comma t).2.length ≤ t.length := by
  unfold get_next_word_without_comma
  exact Nat.le_trans (skip_white_character_length_le _) (word_scan_length_le _)

/-- When `check_for_comma` consumes a comma, the rest is strictly
shorter. -/
theorem check_for_comma_true_length (t : List Char) :
    (check_for_comma t).1 = true → (check_for_comma t).2.1.length < t.length := by
  match t with
  | [] => simp [check_for_comma]
  | c :: rest =>
    rw [check_for_comma]
    split
    · simp
    · simp

/-- The value-collecting loop of `save_data` (`first_pass.c`), starting
at a value position: skip whitespace; a comma here is
`INVALID_COMMA_POSITION` and ends the directive; otherwise extract the
next word, store `(unsigned int) atoi(word)` if `is_number` accepts it
(else raise `DATA_NEED_NUM_VALUE`), and continue exactly when
`check_for_comma` consumes a comma.  Result: (words appended to
`data[]` in order, diagnostics raised in order). -/
def save_data_loop (text : List Char) : List Nat × List error_code :=
  let t := skip_white_character text
  if t.head? = some ',' then ([], [.INVALID_COMMA_POSITION])
  else
    let word := (get_next_word_without_comma t).1
    let t1 := (get_next_word_without_comma t).2
    let step : List Nat × List error_code :=
      if is_number word then ([to_unsigned (atoi word)], [])
      else ([], [.DATA_NEED_NUM_VALUE])
    if hc : (check_for_comma t1).1 = true then
      let rest := save_data_loop (check_for_comma t1).2.1
      (step.1 ++ rest.1, step.2 ++ rest.2)
    else
      (step.1, step.2 ++ (check_for_comma t1).2.2)
termination_by text.length
decreasing_by
  exact Nat.lt_of_lt_of_le
    (Nat.lt_of_lt_of_le (check_for_comma_true_length _ hc)
      (get_next_word_without_comma_length_le _))
    (skip_white_character_length_le _)

/-- Source `save_data` from `first_pass.c`: skip the `.data` word itself; an
empty remainder raises `MUST_PROVIDE_VALUES_TO_DATA`; otherwise run the
value loop.  Result: (words stored into `data[]`, diagnostics). -/
def save_data (line_text : List Char) : List Nat × List error_code :=
  let t := skip_one_word_in_line line_text
  if is_end_line t then ([], [.MUST_PROVIDE_VALUES_TO_DATA])
  else save_data_loop t

/-- The label-collecting loop of `add_extern_labels` (`first_pass.c`):
like the `.data` loop, but each valid name is inserted into the label
list with kind `EXTERN` and address 0 (a duplicate insertion's error
code is surfaced via `update_error_status`); an invalid name raises
`INVALID_LABEL_NAME`. -/
def add_extern_labels_loop (labels : List item_label) (text : List Char) :
    List item_label × List error_code :=
  let t := skip_white_character text
  if t.head? = some ',' then (labels, [.INVALID_COMMA_POSITION])
  else
    let word := (get_next_word_without_comma t).1
    let t1 := (get_next_word_without_comma t).2
    let step : List item_label × List error_code :=
      if is_label_name_valid word then
        let r := add_to_list_label labels (String.mk word) 0 .EXTERN
        (r.2, if r.1 = .NO_ERROR then [] else [r.1])
      else (labels, [.INVALID_LABEL_NAME])
    if hc : (check_for_comma t1).1 = true then
      let rest := add_extern_labels_loop step.1 (check_for_comma t1).2.1
      (rest.1, step.2 ++ rest.2)
    else
      (step.1, step.2 ++ (check_for_comma t1).2.2)
termination_by text.length
decreasing_by
  exact Nat.lt_of_lt_of_le
    (Nat.lt_of_lt_of_le (check_for_comma_true_length _ hc)
      (get_next_word_without_comma_length_le _))
    (skip_white_character_length_le _)

/-- Source `add_extern_labels` from `first_pass.c`: sets `extern_flag` to
TRUE *unconditionally on entry*, skips the `.extern` word, raises
`MUST_PROVIDE_LABELS_TO_EXTERN` on an empty remainder, and otherwise
runs the label loop.  Result: (label list, diagnostics, extern_flag). -/
def add_extern_labels (labels : List item_label) (line_text : List Char) :
    List item_label × List error_code × Bool :=
  let t := skip_one_word_in_line line_text
  if is_end_line t then (labels, [.MUST_PROVIDE_LABELS_TO_EXTERN], true)
  else
    let r := add_extern_labels_loop labels t
    (r.1, r.2, true)

/-- One node of the macro linked list (`macro_list.h`). -/
structure macro_item where
  macroName : String
  macroText : String
  deriving DecidableEq, Repr

/-- The insertion routine of `macro_list.c` (source name
`add_to_list` + `_macro`): same walk as the label list — on a name
match return `MACRO_ALREADY_EXISTS` leaving the list untouched,
otherwise append at the end with `NO_ERROR`. -/
def macro_list_insert (head : List macro_item) (name text : String) :
    error_code × List macro_item :=
  match head with
  | [] => (.NO_ERROR, [⟨name, text⟩])
  | node :: rest =>
    if node.macroName = name then
      (.MACRO_ALREADY_EXISTS, node :: rest)
    else
      match rest with
      | [] => (.NO_ERROR, [node, ⟨name, text⟩])
      | _ :: _ =>
        let result := macro_list_insert rest name text
        (result.1, node :: result.2)

/-- Source `add_new_macro_to_list` from `pre_assembly.c`, the sealing action
at `endmcro`: if the captured name is *not* a reserved word, insert the
macro (surfacing a duplicate-name error through `update_error_status`);
otherwise raise `MACRO_NAME_IS_INSTRUCTION_OR_DIRECTIVE` and leave the
macro table unchanged.  Result: (macro table, diagnostics). -/
def add_new_macro_to_list (head : List macro_item)
    (curr_macro_name : List Char) (curr_macro_text : String) :
    List macro_item × List error_code :=
  if is_name_a_reserved_word curr_macro_name = false then
    let r := macro_list_insert head (String.mk curr_macro_name) curr_macro_text
    (r.2, if r.1 = .NO_ERROR then [] else [r.1])
  else
    (head, [.MACRO_NAME_IS_INSTRUCTION_OR_DIRECTIVE])

/-! Section: Helper lemmas -/

/-- The binary-exponentiation loop of `pow_math` computes
`result * base ^ exp`. -/
theorem pow_math_loop_eq (e : Nat) : ∀ b r : Nat, pow_math_loop b r e = r * b ^ e := by
  induction e using Nat.strong_induction_on with
  | _ e ih =>
    intro b r
    rw [pow_math_loop]
    split
    · subst e; simp
    · rename_i he
      rw [ih (e / 2) (Nat.div_lt_self (Nat.pos_of_ne_zero he) (by omega)) (b * b)]
      have hsq : (b * b) ^ (e / 2) = b ^ (2 * (e / 2)) := by
        rw [Nat.pow_mul, Nat.pow_two]
      rcases Nat.mod_two_eq_zero_or_one e with h2 | h2
      · have h3 : e = 2 * (e / 2) := by omega
        rw [if_neg (by omega), hsq, ← h3]
      · have h3 : e = 2 * (e / 2) + 1 := by omega
        rw [if_pos h2, hsq]
        calc r * b * b ^ (2 * (e / 2)) = r * b ^ (2 * (e / 2) + 1) := by ring
          _ = r * b ^ e := by rw [← h3]

/-- Source `pow_math e` is `2 ^ e`. -/
theorem pow_math_eq (e : Nat) : pow_math e = 2 ^ e := by
  rw [pow_math, pow_math_loop_eq, Nat.one_mul, BASE_POW]

/-- Masking with a left-shifted mask and shifting down commutes to
masking after the shift. -/
theorem and_shiftLeft_shiftRight (w M s : Nat) :
    (w &&& M <<< s) >>> s = (w >>> s) &&& M := by
  apply Nat.eq_of_testBit_eq
  intro k
  simp [Nat.testBit_shiftRight, Nat.testBit_and, Nat.testBit_shiftLeft,
    Nat.le_add_right, Nat.add_sub_cancel_left]

/-- Source `get_specific_bits w start fin` extracts the value of bits
`start..fin`: divide by `2^start` and keep `fin-start+1` bits. -/
theorem get_specific_bits_eq (w s e : Nat) :
    get_specific_bits w s e = w / 2 ^ s % 2 ^ (e - s + 1) := by
  unfold get_specific_bits
  rw [pow_math_eq, and_shiftLeft_shiftRight, Nat.shiftRight_eq_div_pow,
    Nat.and_pow_two_sub_one_eq_mod]

/-- An in-bounds `getD` lookup is a member of the list. -/
theorem getD_mem_of_lt {α : Type} (l : List α) (i : Nat) (d : α) (h : i < l.length) :
    l.getD i d ∈ l := by
  rw [List.getD_eq_getElem l d h]
  exact List.getElem_mem h

/-! Section: C1 — layout of the first instruction word -/

/-- C1: for every instruction encoded by the first pass (any opcode of
the sixteen-entry table and any pair of operand addressing methods),
the first word laid down in `code[]` carries `Absolute` (0) in bits
0-1, the destination method's numeric value (`NotPresent=0`,
`Immediate=1`, `Direct=3`, `Register=5`) in bits 2-4, the opcode's
position in the opcode list in bits 5-8, and the source method's
numeric value (0 if absent) in bits 9-11. -/
theorem c1_first_word_layout (type : instruction_type)
    (h : type ≠ instruction_type.NOT_INSTRUCTION)
    (source destination : addressing_method) :
    (add_first_word_of_instruction_to_array type source destination) % 2 ^ 2
        = encoding_type.val .ABSOLUTE ∧
    (add_first_word_of_instruction_to_array type source destination) / 2 ^ 2 % 2 ^ 3
        = destination.val ∧
    (add_first_word_of_instruction_to_array type source destination) / 2 ^ 5 % 2 ^ 4
        = type.val ∧
    (add_first_word_of_instruction_to_array type source destination) / 2 ^ 9 % 2 ^ 3
        = source.val ∧
    addressing_method.val .NOT_EXIST = 0 := by
  cases type <;>
    first
      | exact absurd rfl h
      | cases source <;> cases destination <;> decide

/-- Witness for C1 at `mov` with a direct source and a register
destination (first word `0b101'0000'101'00` = 2628). -/
theorem c1_first_word_layout_witness :
    (instruction_type.MOV ≠ instruction_type.NOT_INSTRUCTION) ∧
    ((add_first_word_of_instruction_to_array .MOV .DIRECT .REGISTER) % 2 ^ 2
        = encoding_type.val .ABSOLUTE ∧
     (add_first_word_of_instruction_to_array .MOV .DIRECT .REGISTER) / 2 ^ 2 % 2 ^ 3
        = addressing_method.val .REGISTER ∧
     (add_first_word_of_instruction_to_array .MOV .DIRECT .REGISTER) / 2 ^ 5 % 2 ^ 4
        = instruction_type.val .MOV ∧
     (add_first_word_of_instruction_to_array .MOV .DIRECT .REGISTER) / 2 ^ 9 % 2 ^ 3
        = addressing_method.val .DIRECT ∧
     addressing_method.val .NOT_EXIST = 0) :=
  ⟨by decide, c1_first_word_layout .MOV (by decide) .DIRECT .REGISTER⟩

/-! Section: C2 — base-64 encoding of a 12-bit word -/

/-- C2: for every 12-bit word `w`, the base-64 encoding written to the
object file is exactly the two characters `base64_table[w / 64]` and
`base64_table[w % 64]` (then the newline), both characters belong to
the 64-character alphabet `A-Z a-z 0-9 + /` whose character 0 is `'A'`
and which has no duplicate characters (so each character decodes to a
unique 6-bit value: bits 6-11 for the first, bits 0-5 for the second),
and concatenating the two 6-bit values high-then-low recovers `w`. -/
theorem c2_base64_roundtrip (w : Nat) (h : w < 2 ^ 12) :
    convert_binary_to_64base w =
      [base64_table.getD (w / 64) 'A', base64_table.getD (w % 64) 'A', '\n'] ∧
    base64_table.getD (w / 64) 'A' ∈ base64_table ∧
    base64_table.getD (w % 64) 'A' ∈ base64_table ∧
    base64_table.length = 64 ∧
    base64_table.Nodup ∧
    base64_table.getD 0 'A' = 'A' ∧
    64 * (w / 64) + w % 64 = w := by
  have hdiv : w / 64 < 64 := by omega
  have hmod : w % 64 < 64 := Nat.mod_lt _ (by omega)
  have hlen : base64_table.length = 64 := by decide
  refine ⟨?_, ?_, ?_, hlen, by decide, by decide, Nat.div_add_mod w 64⟩
  · unfold convert_binary_to_64base
    rw [get_specific_bits_eq, get_specific_bits_eq]
    norm_num
    rw [Nat.mod_eq_of_lt hdiv]
  · exact getD_mem_of_lt _ _ _ (by rw [hlen]; exact hdiv)
  · exact getD_mem_of_lt _ _ _ (by rw [hlen]; exact hmod)

/-- Witness for C2 at `w = 150` (`= 2*64 + 22`, encoded `"CW"`). -/
theorem c2_base64_roundtrip_witness :
    (150 < 2 ^ 12) ∧
    (convert_binary_to_64base 150 =
      [base64_table.getD (150 / 64) 'A', base64_table.getD (150 % 64) 'A', '\n'] ∧
     base64_table.getD (150 / 64) 'A' ∈ base64_table ∧
     base64_table.getD (150 % 64) 'A' ∈ base64_table ∧
     base64_table.length = 64 ∧
     base64_table.Nodup ∧
     base64_table.getD 0 'A' = 'A' ∧
     64 * (150 / 64) + 150 % 64 = 150) :=
  ⟨by decide, c2_base64_roundtrip 150 (by decide)⟩

/-! Section: C3 — object-file word count -/

/-- C3 counterexample: a source with no code and no data finishes the
first pass with `ic_final = 100` (the counter starts at
`FIRST_CELL_IN_MEMORY`) and `dc_final = 0`; the object file then has 0
word lines after the header, not `ic_final + dc_final = 100`. -/
theorem c3_word_count_counterexample :
    ((create_object_file (fun _ => 0) (fun _ => 0) FIRST_CELL_IN_MEMORY 0).drop 1).length
        = 0 ∧
    FIRST_CELL_IN_MEMORY + 0 ≠ 0 := by
  constructor
  · simp [create_object_file]
  · decide

/-- C3 amended: for every emitted object file the number of word lines
after the header equals `(ic_final - FIRST_CELL_IN_MEMORY) + dc_final`
(the code-word count of the header plus the data-word count), not
`ic_final + dc_final`. -/
theorem c3_word_count (instruction_array data_array : Nat → Nat) (ic dc : Nat)
    (h : FIRST_CELL_IN_MEMORY ≤ ic) :
    ((create_object_file instruction_array data_array ic dc).drop 1).length
      = (ic - FIRST_CELL_IN_MEMORY) + dc := by
  simp [create_object_file]

/-- Witness for C3 (amended) at `ic = 102`, `dc = 3`. -/
theorem c3_word_count_witness :
    FIRST_CELL_IN_MEMORY ≤ 102 ∧
    ((create_object_file (fun _ => 7) (fun _ => 9) 102 3).drop 1).length
      = (102 - FIRST_CELL_IN_MEMORY) + 3 :=
  ⟨by decide, c3_word_count (fun _ => 7) (fun _ => 9) 102 3 (by decide)⟩

/-! Section: C4 — duplicate-label insertion -/

/-- C4: inserting a name already present in the symbol table returns
`LABEL_ALREADY_EXISTS` and leaves the table exactly as it was (so a
name that had one record keeps exactly that record, with its original
address and kind); inserting a name not present appends one new record
at the end and returns `NO_ERROR`. -/
theorem c4_insert_label (l : List item_label) (n : String) (a : Int)
    (k : type_of_label) :
    ((∃ r ∈ l, r.name_label = n) →
        add_to_list_label l n a k = (.LABEL_ALREADY_EXISTS, l)) ∧
    ((∀ r ∈ l, r.name_label ≠ n) →
        add_to_list_label l n a k = (.NO_ERROR, l ++ [⟨n, a, k⟩])) ∧
    ((l.filter (fun r => r.name_label = n)).length = 1 →
        (add_to_list_label l n a k).2.filter (fun r => r.name_label = n)
          = l.filter (fun r => r.name_label = n)) := by
  have main :
      ((∃ r ∈ l, r.name_label = n) →
          add_to_list_label l n a k = (.LABEL_ALREADY_EXISTS, l)) ∧
      ((∀ r ∈ l, r.name_label ≠ n) →
          add_to_list_label l n a k = (.NO_ERROR, l ++ [⟨n, a, k⟩])) := by
    induction l with
    | nil =>
      refine ⟨fun h => ?_, fun _ => rfl⟩
      obtain ⟨r, hr, _⟩ := h
      exact absurd hr (List.not_mem_nil r)
    | cons node rest ih =>
      constructor
      · rintro ⟨r, hr, hname⟩
        by_cases h : node.name_label = n
        · simp [add_to_list_label, h]
        · rcases List.mem_cons.mp hr with rfl | hr'
          · exact absurd hname h
          · match rest, hr' with
            | b :: bs, hr' =>
              have hrec := ih.1 ⟨r, hr', hname⟩
              have hstep : add_to_list_label (node :: b :: bs) n a k
                  = ((add_to_list_label (b :: bs) n a k).1,
                     node :: (add_to_list_label (b :: bs) n a k).2) := by
                simp [add_to_list_label, h]
              rw [hstep, hrec]
      · intro hall
        by_cases h : node.name_label = n
        · exact absurd h (hall node (List.mem_cons_self node rest))
        · match rest with
          | [] => simp [add_to_list_label, h]
          | b :: bs =>
            have hrec := ih.2 (fun r hr => hall r (List.mem_cons_of_mem node hr))
            have hstep : add_to_list_label (node :: b :: bs) n a k
                = ((add_to_list_label (b :: bs) n a k).1,
                   node :: (add_to_list_label (b :: bs) n a k).2) := by
              simp [add_to_list_label, h]
            rw [hstep, hrec]
            rfl
  refine ⟨main.1, main.2, ?_⟩
  intro hf
  have hex : ∃ r ∈ l, r.name_label = n := by
    have hne : l.filter (fun r => r.name_label = n) ≠ [] := by
      intro hnil
      rw [hnil] at hf
      simp at hf
    obtain ⟨r, hr⟩ := List.exists_mem_of_ne_nil _ hne
    exact ⟨r, (List.mem_filter.mp hr).1, by simpa using (List.mem_filter.mp hr).2⟩
  rw [main.1 hex]

/-- Witness for C4: a duplicate insertion of `"LOOP"` is rejected and
the table is untouched; a fresh insertion of `"END"` is appended. -/
theorem c4_insert_label_witness :
    add_to_list_label [⟨"LOOP", 100, .CODE⟩] "LOOP" 7 .DATA
        = (.LABEL_ALREADY_EXISTS, [⟨"LOOP", 100, .CODE⟩]) ∧
    add_to_list_label [⟨"LOOP", 100, .CODE⟩] "END" 105 .CODE
        = (.NO_ERROR, [⟨"LOOP", 100, .CODE⟩, ⟨"END", 105, .CODE⟩]) := by
  constructor
  · exact (c4_insert_label [⟨"LOOP", 100, .CODE⟩] "LOOP" 7 .DATA).1
      ⟨⟨"LOOP", 100, .CODE⟩, by simp, rfl⟩
  · exact (c4_insert_label [⟨"LOOP", 100, .CODE⟩] "END" 105 .CODE).2.1
      (by intro r hr; simp at hr; subst hr; decide)

/-! Section: C5 — rebase of data labels -/

/-- C5: `update_address_of_data` keeps the list length and, position by
position, adds the offset to the address of every record of kind
`Data` while returning every other record unchanged (names, kinds and
the addresses of `Code`, `Extern` and `Entry` records are preserved). -/
theorem c5_rebase_data (l : List item_label) (ic : Int) :
    (update_address_of_data l ic).length = l.length ∧
    ∀ i : Nat, (update_address_of_data l ic)[i]? =
      (l[i]?).map (fun r =>
        if r.type = .DATA then { r with address_label := r.address_label + ic }
        else r) := by
  induction l with
  | nil => exact ⟨rfl, fun i => by simp [update_address_of_data]⟩
  | cons node rest ih =>
    constructor
    · simpa [update_address_of_data] using ih.1
    · intro i
      match i with
      | 0 => simp [update_address_of_data]
      | i + 1 =>
        simpa [update_address_of_data] using ih.2 i

/-! Section: C6 — label-name validation -/

/-- The reserved lexemes as the specification lists them (§6.6):
directives, macro keywords, registers `@r0`..`@r7` and the sixteen
opcodes.  Spec-side definition, for comparison with
`is_name_a_reserved_word` (which omits `mcro`, `endmcro` and `@r1`). -/
def spec_reserved_lexeme (name : List Char) : Bool :=
  name = ".data".toList || name = ".string".toList ||
  name = ".entry".toList || name = ".extern".toList ||
  name = "mcro".toList || name = "endmcro".toList ||
  name = "@r0".toList || name = "@r1".toList || name = "@r2".toList ||
  name = "@r3".toList || name = "@r4".toList || name = "@r5".toList ||
  name = "@r6".toList || name = "@r7".toList ||
  name = "mov".toList || name = "cmp".toList || name = "add".toList ||
  name = "sub".toList || name = "not".toList || name = "clr".toList ||
  name = "lea".toList || name = "inc".toList || name = "dec".toList ||
  name = "jmp".toList || name = "bne".toList || name = "red".toList ||
  name = "prn".toList || name = "jsr".toList || name = "rts".toList ||
  name = "stop".toList

/-- The label-name rule as the claim states it: starts with a letter,
only letters and digits, length strictly below 32, not a reserved word.
Spec-side definition, for comparison with `is_label_name_valid`. -/
def spec_label_name_valid (name : List Char) : Bool :=
  isalpha (name.headD (Char.ofNat 0)) &&
  name.all (fun c => isalpha c || isdigit c) &&
  decide (name.length < 32) &&
  !(spec_reserved_lexeme name)

/-- C6 counterexample: the macro keyword `mcro` is accepted by the
validator (it is missing from the source's reserved-word chain), and a
33-letter name is accepted as well (the length check only rejects
count 32 exactly), while the claimed rule rejects both. -/
theorem c6_label_name_counterexample :
    is_label_name_valid "mcro".toList = true ∧
    spec_label_name_valid "mcro".toList = false ∧
    is_label_name_valid (List.replicate 33 'a') = true ∧
    spec_label_name_valid (List.replicate 33 'a') = false := by
  refine ⟨by decide, by decide, ?_, by decide⟩
  decide

/-- The scan loop of the validator, characterised: starting at
`count ≤ 33`, the loop examines the characters before the first
newline, but at most `33 - count` of them; it fails on a
non-alphanumeric character among those, and otherwise succeeds unless
the count stops at exactly 32. -/
theorem is_label_name_valid_loop_eq (name : List Char) :
    ∀ count : Nat, count ≤ 33 →
      is_label_name_valid_loop name count =
        (((name.takeWhile (fun c => c != '\n')).take (33 - count)).all
            (fun c => isalpha c || isdigit c)
          && decide
              (count + min (33 - count) (name.takeWhile (fun c => c != '\n')).length
                ≠ 32)) := by
  induction name with
  | nil =>
    intro count hc
    simp [is_label_name_valid_loop, MAX_NAME_LABEL_LENGTH]
  | cons c rest ih =>
    intro count hc
    rw [is_label_name_valid_loop]
    by_cases hnl : c = '\n'
    · rw [if_pos (Or.inl hnl)]
      subst hnl
      rw [List.takeWhile_cons]
      simp [MAX_NAME_LABEL_LENGTH]
    · by_cases hcnt : count > MAX_NAME_LABEL_LENGTH
      · -- count = 33: the loop exits immediately with TRUE
        rw [if_pos (Or.inr hcnt)]
        have h33 : count = 33 := by
          simp [MAX_NAME_LABEL_LENGTH] at hcnt; omega
        subst h33
        simp [MAX_NAME_LABEL_LENGTH]
      · rw [if_neg (by push_neg; exact ⟨hnl, by omega⟩)]
        have htw : (c :: rest).takeWhile (fun c => c != '\n')
            = c :: rest.takeWhile (fun c => c != '\n') := by
          rw [List.takeWhile_cons, if_pos (by simp [hnl])]
        by_cases halnum : isalpha c = false ∧ isdigit c = false
        · rw [if_pos halnum]
          rw [htw]
          have htake : (33 - count) = (33 - (count + 1)) + 1 := by
            simp [MAX_NAME_LABEL_LENGTH] at hcnt; omega
          rw [htake, List.take_succ_cons, List.all_cons]
          simp [halnum.1, halnum.2]
        · rw [if_neg halnum]
          rw [ih (count + 1) (by simp [MAX_NAME_LABEL_LENGTH] at hcnt; omega)]
          rw [htw]
          have htake : (33 - count) = (33 - (count + 1)) + 1 := by
            simp [MAX_NAME_LABEL_LENGTH] at hcnt; omega
          rw [htake, List.take_succ_cons, List.all_cons]
          have hc' : (isalpha c || isdigit c) = true := by
            cases ha : isalpha c with
            | false =>
              cases hd : isdigit c with
              | false => exact absurd ⟨ha, hd⟩ halnum
              | true => simp
            | true => simp
          rw [hc']
          have hmin : count + 1 + min (33 - (count + 1))
                (rest.takeWhile (fun c => c != '\n')).length
              = count + min ((33 - (count + 1)) + 1)
                ((rest.takeWhile (fun c => c != '\n')).length + 1) := by
            omega
          simp only [List.length_cons, Bool.true_and, hmin]

/-- C6 amended: the validator accepts a name iff it is not in the
*source's* reserved-word chain (which omits the macro keywords `mcro`
and `endmcro` and the register `@r1` — registers are excluded anyway by
the leading-letter rule), it starts with a letter, the characters
before the first newline are letters and digits — but only the first
33 of them are examined — and their number is not exactly 32 (so names
of length 33 or more whose first 33 characters are alphanumeric are
accepted despite the intended `< 32` limit). -/
theorem c6_label_name_valid_characterisation (name : List Char) :
    is_label_name_valid name =
      (!(is_name_a_reserved_word name)
        && isalpha (name.headD (Char.ofNat 0))
        && ((name.takeWhile (fun c => c != '\n')).take 33).all
            (fun c => isalpha c || isdigit c)
        && decide ((name.takeWhile (fun c => c != '\n')).length ≠ 32)) := by
  rw [is_label_name_valid.eq_def]
  by_cases hres : is_name_a_reserved_word name
  · simp [hres]
  · rw [if_neg hres]
    match name with
    | [] => decide
    | c :: rest =>
      by_cases ha : isalpha c = false
      · show (if isalpha c = false then false
                else is_label_name_valid_loop (c :: rest) 0) = _
        simp [ha, hres]
      · show (if isalpha c = false then false
                else is_label_name_valid_loop (c :: rest) 0) = _
        rw [if_neg ha]
        rw [is_label_name_valid_loop_eq (c :: rest) 0 (by omega)]
        have ha' : isalpha c = true := by
          cases h : isalpha c with
          | false => exact absurd h ha
          | true => rfl
        have hmin : ∀ L : Nat, (decide (0 + min (33 - 0) L ≠ 32) : Bool)
            = decide (L ≠ 32) := by
          intro L
          rw [decide_eq_decide]
          omega
        rw [hmin]
        simp [hres, ha']

/-! Section: C7 — macro named after a register -/

/-- C7 (code bug): `@r1` is a register name (the source's own
`is_register` accepts it), yet the reserved-word chain used when a
macro body is sealed at `endmcro` omits `@r1`, so a macro named `@r1`
is inserted into the macro table with no
`MacroNameIsInstructionOrDirective` diagnostic — the claim holds for
the other seven registers but fails for `@r1`. -/
theorem c7_r1_macro_name_accepted :
    is_register "@r1".toList = true ∧
    is_name_a_reserved_word "@r1".toList = false ∧
    add_new_macro_to_list [] "@r1".toList "inc @r2\n"
      = ([⟨"@r1", "inc @r2\n"⟩], []) ∧
    is_name_a_reserved_word "@r0".toList = true ∧
    add_new_macro_to_list [] "@r0".toList "inc @r2\n"
      = ([], [.MACRO_NAME_IS_INSTRUCTION_OR_DIRECTIVE]) := by
  refine ⟨by decide, by decide, ?_, by decide, ?_⟩
  · simp [add_new_macro_to_list, macro_list_insert]
    decide
  · simp [add_new_macro_to_list]
    decide

/-! Section: C8 — comma handling in `.data` -/

/-- C8 counterexample: on the line `.data 5,` the trailing comma does
*not* raise `InvalidCommaPosition` (nor any other diagnostic): after
consuming the comma the loop re-enters at the end of the line, the
empty token passes `is_number`, and `atoi("") = 0` is stored — one
word beyond the listed values. -/
theorem c8_trailing_comma_counterexample :
    save_data ['.', 'd', 'a', 't', 'a', ' ', '5', ',', '\n'] = ([5, 0], []) := by
  simp [save_data, save_data_loop, skip_one_word_in_line, skip_white_character,
    skip_word_loop, is_end_line, get_next_word_without_comma, word_scan,
    check_for_comma, is_number, is_number_loop, isdigit, atoi, atoi_digits,
    to_unsigned]
  decide

/-- C8 amended: a comma at a *value* position — leading (before the
first value) or doubled (right after a consumed comma) — raises
`InvalidCommaPosition` and stops the directive with nothing further
stored; but a *trailing* comma raises no diagnostic at all: the loop
re-entered at the end of the line stores one extra word 0. -/
theorem c8_comma_positions (t rest line : List Char) :
    (skip_white_character t = ',' :: rest →
        save_data_loop t = ([], [.INVALID_COMMA_POSITION])) ∧
    (skip_white_character t = '\n' :: rest →
        save_data_loop t = ([0], [])) ∧
    (skip_white_character t = [] →
        save_data_loop t = ([0], [])) ∧
    (skip_white_character (skip_one_word_in_line line) = ',' :: rest →
      is_end_line (skip_one_word_in_line line) = false →
        save_data line = ([], [.INVALID_COMMA_POSITION])) := by
  have hloop_comma : ∀ u : List Char, skip_white_character u = ',' :: rest →
      save_data_loop u = ([], [.INVALID_COMMA_POSITION]) := by
    intro u h
    rw [save_data_loop]
    simp [h]
  refine ⟨hloop_comma t, ?_, ?_, ?_⟩
  · intro h
    rw [save_data_loop]
    simp [h, get_next_word_without_comma, word_scan, skip_white_character,
      check_for_comma, is_number, is_number_loop, atoi, atoi_digits, to_unsigned]
    decide
  · intro h
    rw [save_data_loop]
    simp [h, get_next_word_without_comma, word_scan, skip_white_character,
      check_for_comma, is_number, is_number_loop, atoi, atoi_digits, to_unsigned]
    decide
  · intro h hend
    rw [save_data, hend]
    simp only [Bool.false_eq_true, if_false]
    exact hloop_comma _ h

/-- Witness for C8 (amended) at the loop states reached after
`.data ,`, `.data 5,` and on the line `.data ,5`. -/
theorem c8_comma_positions_witness :
    save_data_loop [',', '5', '\n'] = ([], [.INVALID_COMMA_POSITION]) ∧
    save_data_loop ['\n'] = ([0], []) ∧
    save_data_loop [] = ([0], []) ∧
    save_data ['.', 'd', 'a', 't', 'a', ' ', ',', '5', '\n']
      = ([], [.INVALID_COMMA_POSITION]) :=
  ⟨(c8_comma_positions [',', '5', '\n'] ['5', '\n'] []).1 (by decide),
   (c8_comma_positions ['\n'] [] []).2.1 (by decide),
   (c8_comma_positions [] [] []).2.2.1 (by decide),
   (c8_comma_positions [] ['5', '\n']
      ['.', 'd', 'a', 't', 'a', ' ', ',', '5', '\n']).2.2.2
     (by decide) (by decide)⟩

/-! Section: C9 — when the extern listing file is written -/

/-- The condition §6.4 of the specification states for writing the
extern listing: at least one `.extern` declaration *and* at least one
encoded use site of an external label.  Spec-side definition, for
comparison with the `extern_flag`-only test of `create_all_files`. -/
def ext_file_written_spec (extern_declared : Bool)
    (use_sites : List (String × Int)) : Bool :=
  extern_declared && !use_sites.isEmpty

/-- C9 counterexample: processing `.extern K` sets `extern_flag` (and
inserts `K`), and a run that never references `K` finishes the second
pass with an empty extern listing buffer — yet `create_all_files`
still writes the `.ext` file (with empty content), while the claim
says no extern file may be written without a use site. -/
theorem c9_unreferenced_extern_counterexample :
    add_extern_labels [] ['.', 'e', 'x', 't', 'e', 'r', 'n', ' ', 'K', '\n']
      = ([⟨"K", 0, .EXTERN⟩], [], true) ∧
    (file_kind.EXT, "") ∈ create_all_files false true [⟨"K", 0, .EXTERN⟩] ""
        (fun _ => 0) (fun _ => 0) FIRST_CELL_IN_MEMORY 0 ∧
    ext_file_written_spec true [] = false := by
  refine ⟨?_, ?_, by decide⟩
  · simp [add_extern_labels, add_extern_labels_loop, skip_one_word_in_line,
      skip_white_character, skip_word_loop, is_end_line,
      get_next_word_without_comma, word_scan, check_for_comma,
      is_label_name_valid, is_label_name_valid_loop, is_name_a_reserved_word,
      isalpha, isdigit, add_to_list_label, MAX_NAME_LABEL_LENGTH]
  · simp [create_all_files]

/-- C9 amended: the `.ext` artefact is written if and only if
`extern_flag` is set — that is, iff at least one `.extern` directive
line was processed — regardless of whether any use site of an external
label was encoded; with no use sites the written file is empty. -/
theorem c9_ext_written_iff_extern_flag (entry_flag extern_flag : Bool)
    (labels : List item_label) (extern_list : String)
    (instruction_array data_array : Nat → Nat) (ic dc : Nat) :
    ((file_kind.EXT, extern_list)
        ∈ create_all_files entry_flag extern_flag labels extern_list
            instruction_array data_array ic dc)
      ↔ extern_flag = true := by
  cases entry_flag <;> cases extern_flag <;>
    simp [create_all_files]

/-! Section: C10 — bare sign accepted as a numeric literal -/

/-- C10: `is_number` accepts a lone `+`, a lone `-` and the empty
token (the sign is skipped and the digit loop accepts zero digits), so
the operand classifier types a bare sign as `Immediate` rather than
`Direct`, and a `.data` operand consisting of a bare sign is stored as
the word 0 (`atoi` of a bare sign) with no `DataNeedNumValue`
diagnostic. -/
theorem c10_bare_sign_is_number :
    is_number ['+'] = true ∧ is_number ['-'] = true ∧ is_number [] = true ∧
    get_addressing_method_type ['+'] = .IMMEDIATE ∧
    get_addressing_method_type ['-'] = .IMMEDIATE ∧
    save_data ['.', 'd', 'a', 't', 'a', ' ', '+', '\n'] = ([0], []) := by
  refine ⟨by decide, by decide, by decide, by decide, by decide, ?_⟩
  simp [save_data, save_data_loop, skip_one_word_in_line, skip_white_character,
    skip_word_loop, is_end_line, get_next_word_without_comma, word_scan,
    check_for_comma, is_number, is_number_loop, isdigit, atoi, atoi_digits,
    to_unsigned]
  decide

end Assembler
